import Mathlib

/-!
Verification of the weaviate-cli data-import pipeline
(`src/semi/data/commands.py`) against its specification.

Python dicts are modelled as association lists with first-match lookup and
replace-in-place insertion; `sys.exit` and uncaught Python exceptions are
modelled as explicit failure values; calls to the external weaviate client
(schema service, batched write service) are modelled as traces of events.
-/

set_option autoImplicit false

namespace WeaviateCli

/-- A single reference descriptor as read from the input document: a mapping
that may or may not carry a `beacon` key (`ref.get("beacon", "e")`). -/
structure RefDescriptor where
  beacon : Option String
deriving DecidableEq, Repr

/-- A raw JSON-like property value: either a primitive value (string, number,
boolean, null) or a list of reference descriptors.  Primitive values are only
ever copied verbatim, never inspected. -/
inductive JValue where
  | jstr (s : String)
  | jnum (n : Int)
  | jbool (b : Bool)
  | jnull
  | jrefs (descriptors : List RefDescriptor)
deriving DecidableEq, Repr

/-- The list of reference descriptors held by a `jrefs` value (empty for a
primitive value); used only to state theorems. -/
def JValue.refList : JValue → List RefDescriptor
  | .jrefs l => l
  | _ => []

/-- Python dict lookup `d.get(k)`: the value stored under `k`, if any. -/
def pyDictGet {V : Type} (d : List (String × V)) (k : String) : Option V :=
  (d.find? (fun p => p.1 == k)).map (fun p => p.2)

/-- Python dict assignment `d[k] = v`: replace the value under `k` in place,
or append a fresh binding. -/
def pyDictInsert {V : Type} : List (String × V) → String → V → List (String × V)
  | [], k, v => [(k, v)]
  | (k', v') :: rest, k, v =>
    if k' == k then (k, v) :: rest else (k', v') :: pyDictInsert rest k v

/-- Python `s.split(sep)` with an explicit one-character separator, on the
character list of the string: splits at every occurrence of `sep`, keeping
empty segments; the empty input yields one empty segment. -/
def splitCh (sep : Char) : List Char → List (List Char)
  | [] => [[]]
  | c :: cs =>
    match splitCh sep cs with
    | [] => [[]]
    | s :: ss => if c = sep then [] :: s :: ss else (c :: s) :: ss

/-- Python `s.split(sep)` on strings. -/
def pySplit (s : String) (sep : Char) : List String :=
  (splitCh sep s.toList).map (fun l => String.mk l)

/-- One batcher reference parameter set, as produced by `dissect_reference`. -/
structure RefRecord where
  from_object_uuid : Option String
  from_object_class_name : String
  from_property_name : String
  to_object_uuid : String
deriving DecidableEq, Repr

/-- Function `dissect_reference(refs, from_class, from_id, from_prop)`: one record per
descriptor; the target id is the last segment of `ref.get("beacon", "e")`
split on `/` (`beacon_split[-1]`; the split of any string is nonempty, so the
`getLastD` default is never used). -/
def dissect_reference (refs : List RefDescriptor) (from_class : String)
    (from_id : Option String) (from_prop : String) : List RefRecord :=
  refs.map (fun ref =>
    ⟨from_id, from_class, from_prop,
      (pySplit (ref.beacon.getD "e") '/').getLastD ""⟩)

/-- One property descriptor of a schema class: `{"name": …, "dataType": […]}`. -/
structure PropertyDescriptor where
  name : String
  dataType : List String
deriving DecidableEq, Repr

/-- One class descriptor of a schema document: `{"class": …, "properties": […]}`. -/
structure ClassDescriptor where
  className : String
  properties : List PropertyDescriptor
deriving DecidableEq, Repr

/-- A schema document as returned by `client.schema.get()`; the code reads it
with `schema.get("classes", [])`, so a document without the key behaves as
one with an empty class list. -/
structure SchemaDocument where
  classes : List ClassDescriptor
deriving DecidableEq, Repr

/-- The per-class entry of the dissected schema: `{"primitive": …, "ref": …}`. -/
structure ClassDefinition where
  primitive : List String
  ref : List String
deriving DecidableEq, Repr

/-- The dissected schema: a dict from class name to `ClassDefinition`. -/
abbrev SchemaDefinition := List (String × ClassDefinition)

/-- Function `is_primitive_prop(data_type)`: membership in the fixed list of primitive
data-type tags. -/
def is_primitive_prop (data_type : String) : Bool :=
  ["text", "string", "int", "boolean", "number", "date", "geoCoordinates",
   "phoneNumber"].contains data_type

/-- Function `_get_schema_properties(properties)`: partition the property names by
`is_primitive_prop(property_["dataType"][0])`, in order.  Indexing an empty
`dataType` list raises `IndexError`, modelled as `none`. -/
def _get_schema_properties : List PropertyDescriptor →
    Option (List String × List String)
  | [] => some ([], [])
  | p :: rest => do
    let t ← p.dataType.head?
    let (prim, refs) ← _get_schema_properties rest
    if is_primitive_prop t then
      pure (p.name :: prim, refs)
    else
      pure (prim, p.name :: refs)

/-- Loop of `dissect_schema`: insert each class entry into the dict. -/
def dissect_schema_aux : List ClassDescriptor → SchemaDefinition →
    Option SchemaDefinition
  | [], acc => some acc
  | c :: rest, acc => do
    let (prim, refs) ← _get_schema_properties c.properties
    dissect_schema_aux rest (pyDictInsert acc c.className ⟨prim, refs⟩)

/-- Function `dissect_schema(schema)`: build the per-class primitive/reference split.
`none` models the `IndexError` raised on a property with an empty `dataType`
list. -/
def dissect_schema (schema : SchemaDocument) : Option SchemaDefinition :=
  dissect_schema_aux schema.classes []

/-- The Schema Index derivation as the spec words it (§4.1): a pure total
function partitioning each class's property names by whether the first
data-type tag is primitive.  Used to compare `dissect_schema` against the
spec. -/
def classPartitionSpec (props : List PropertyDescriptor) : ClassDefinition :=
  ⟨(props.filter (fun p => is_primitive_prop (p.dataType.headD ""))).map
      (fun p => p.name),
   (props.filter (fun p => !is_primitive_prop (p.dataType.headD ""))).map
      (fun p => p.name)⟩

/-- The whole Schema Index derivation as the spec words it: fold the classes
into the dictionary, each mapped to its partition. -/
def schemaIndexSpec (schema : SchemaDocument) : SchemaDefinition :=
  schema.classes.foldl
    (fun acc c => pyDictInsert acc c.className (classPartitionSpec c.properties)) []

/-- How the process stops during validation: `validationFailed reason` is
`_exit_validation_failed(reason)` (prints the reason and calls `sys.exit(1)`);
`pyRaise msg` is an uncaught Python exception (traceback printed, the
interpreter exits with status 1). -/
inductive VFail where
  | validationFailed (reason : String)
  | pyRaise (msg : String)
deriving DecidableEq, Repr

/-- The process exit status produced by a validation failure: `sys.exit(1)`
for `_exit_validation_failed`, and the interpreter's status 1 for an uncaught
exception. -/
def pyExitCode : VFail → Nat := fun _ => 1

/-- One raw object of the input document: `class` (string), optional `id`,
optional `vector`, and a `properties` dict read with
`obj.get("properties", {})` (an absent key behaves as the empty dict). -/
structure RawObject where
  className : String
  id : Option String
  vector : Option (List Int)
  properties : List (String × JValue)
deriving DecidableEq, Repr

/-- The `import_object_parameter` dict built by `_validate_obj`: `class_name`,
`uuid`, optional `vector` (present only when the raw object carried one), and
the `data_object` dict of primitive properties. -/
structure ObjectRecord where
  class_name : String
  uuid : Option String
  vector : Option (List Int)
  data_object : List (String × JValue)
deriving DecidableEq, Repr

/-- The mutable accumulators of `ValidateAndSplitData`: `self.data_objects`
and `self.data_references`. -/
structure VState where
  data_objects : List ObjectRecord
  data_references : List RefRecord
deriving DecidableEq, Repr

/-- Python iteration of a reference-property value as done by the loop
`for ref in refs: ref.get("beacon", "e")` inside `dissect_reference`.  A list of
descriptors iterates normally; a nonempty string iterates its characters and
the first `ref.get` raises `AttributeError`; the empty string iterates zero
times; numbers, booleans and `None` are not iterable (`TypeError`). -/
def pyIterRefs : JValue → Except String (List RefDescriptor)
  | .jrefs l => .ok l
  | .jstr s => if s.isEmpty then .ok [] else .error "AttributeError: str has no attribute get"
  | .jnum _ => .error "TypeError: int is not iterable"
  | .jbool _ => .error "TypeError: bool is not iterable"
  | .jnull => .error "TypeError: NoneType is not iterable"

/-- The property loop of `_validate_obj`, with the `data_object` dict and the
references gathered so far as accumulators.  A primitive-named property is
stored verbatim into `data_object`; a reference-named property is dissected
and its records appended; any other name stops with
`_exit_validation_failed`.  On a stop the accumulators reached so far are
returned (the references gathered before the stop were already appended to
`self.data_references` by the code). -/
def validate_obj_props (class_name : String) (object_id : Option String)
    (cd : ClassDefinition) :
    List (String × JValue) → List (String × JValue) → List RefRecord →
    List (String × JValue) × List RefRecord × Option VFail
  | [], acc, refs => (acc, refs, none)
  | (n, v) :: rest, acc, refs =>
    if n ∈ cd.primitive then
      validate_obj_props class_name object_id cd rest (pyDictInsert acc n v) refs
    else if n ∈ cd.ref then
      match pyIterRefs v with
      | .ok l =>
        validate_obj_props class_name object_id cd rest acc
          (refs ++ dissect_reference l class_name object_id n)
      | .error m => (acc, refs, some (.pyRaise m))
    else
      (acc, refs,
        some (.validationFailed
          ("Property " ++ n ++ " of class " ++ class_name ++ " not in schema!")))

/-- Method `ValidateAndSplitData._validate_obj(obj)` over an explicit state: looks
the class up in the dissected schema, stops with `_exit_validation_failed` if
it is absent, otherwise runs the property loop; on success appends exactly
one `ObjectRecord` and the gathered `RefRecord`s to the state. -/
def validate_obj (schema : SchemaDefinition) (st : VState) (obj : RawObject) :
    VState × Option VFail :=
  match pyDictGet schema obj.className with
  | none =>
    (st, some (.validationFailed ("Class " ++ obj.className ++ " not in schema!")))
  | some cd =>
    match validate_obj_props obj.className obj.id cd obj.properties [] [] with
    | (_, refs, some f) => (⟨st.data_objects, st.data_references ++ refs⟩, some f)
    | (acc, refs, none) =>
      (⟨st.data_objects ++ [⟨obj.className, obj.id, obj.vector, acc⟩],
        st.data_references ++ refs⟩, none)

/-- The input document: the code reads it with `data.get("classes", [])`. -/
structure DataDocument where
  classes : List RawObject
deriving DecidableEq, Repr

/-- The object loop of `ValidateAndSplitData.validate_and_split`: validate
each object in file order; a failure terminates the process, so later objects
are not visited. -/
def validate_and_split_aux (schema : SchemaDefinition) :
    List RawObject → VState → VState × Option VFail
  | [], st => (st, none)
  | o :: rest, st =>
    match validate_obj schema st o with
    | (st', some f) => (st', some f)
    | (st', none) => validate_and_split_aux schema rest st'

/-- The `ValidateAndSplitData` construction plus `validate_and_split()`: dissect
the schema (an `IndexError` there is an uncaught exception) and run the
object loop starting from empty accumulators. -/
def validate_and_split (data : DataDocument) (schema : SchemaDocument) :
    VState × Option VFail :=
  match dissect_schema schema with
  | none => (⟨[], []⟩, some (.pyRaise "IndexError: list index out of range"))
  | some sd => validate_and_split_aux sd data.classes ⟨[], []⟩

/-- One call handed to the batched write service by `DataFileImporter.load`. -/
inductive WriteCall where
  | add_data_object (o : ObjectRecord)
  | add_reference (r : RefRecord)
  | flush
deriving DecidableEq, Repr

/-- An externally observable event of `DataFileImporter.load`: the schema
fetch (`client.schema.get()`) or a call to the batcher. -/
inductive LoadEvent where
  | fetchSchema
  | write (w : WriteCall)
deriving DecidableEq, Repr

/-- Whether a load event is a call to the batched write service. -/
def LoadEvent.isWrite : LoadEvent → Bool
  | .fetchSchema => false
  | .write _ => true

/-- Method `DataFileImporter.load()` as a trace of external events: fetch the remote
schema, validate and split the whole document, and only then hand every
object record, every reference record and a final flush to the batcher.  A
validation failure terminates the process before any batcher call. -/
def DataFileImporter_load (remoteSchema : SchemaDocument) (data : DataDocument) :
    List LoadEvent × Option VFail :=
  match validate_and_split data remoteSchema with
  | (_, some f) => ([.fetchSchema], some f)
  | (st, none) =>
    (.fetchSchema ::
       (st.data_objects.map (fun o => .write (.add_data_object o)) ++
        st.data_references.map (fun r => .write (.add_reference r)) ++
        [.write .flush]), none)

/-- The outcome of `json.load` in `DataFileImporter.__init__`:
`syntaxError` — the contents are not valid JSON and `json.load` raises
`JSONDecodeError` (uncaught, so the run dies in `__init__`);
`nonMapping` — the contents parse to a top-level value that is not a mapping
(e.g. a JSON array), so `self.data.get("classes", [])` later raises
`AttributeError` inside `validate_and_split`;
`mapping` — the contents parse to a top-level mapping, read with
`data.get("classes", [])`, so a mapping without the `classes` key behaves as
one with an empty object list. -/
inductive ParsedFile where
  | syntaxError (msg : String)
  | nonMapping (msg : String)
  | mapping (data : DataDocument)
deriving DecidableEq, Repr

/-- Function `import_data_from_file` composed with `DataFileImporter.__init__`: the
`parsed` argument is the outcome of `json.load` on the file.  A
`JSONDecodeError` is uncaught: the traceback is printed and the interpreter
exits with status 1 before `load()` — and hence the schema fetch or any
batcher call — runs.  A top-level non-mapping value survives `__init__`;
`load()` then fetches the schema and constructs `ValidateAndSplitData`
(dissecting the schema, where an empty `dataType` list still raises
`IndexError` first), after which `validate_and_split` raises
`AttributeError` on `self.data.get` — an exit with status 1 after the fetch
but before any batcher call.  Returns the event trace, the messages reported
to the user, and the forced exit status (`none` when the run ends
normally). -/
def import_data_from_file (parsed : ParsedFile)
    (remoteSchema : SchemaDocument) : List LoadEvent × List String × Option Nat :=
  match parsed with
  | .syntaxError msg => ([], [msg], some 1)
  | .nonMapping msg =>
    match dissect_schema remoteSchema with
    | none => ([.fetchSchema], ["IndexError: list index out of range"], some 1)
    | some _ => ([.fetchSchema], [msg], some 1)
  | .mapping data =>
    match DataFileImporter_load remoteSchema data with
    | (evs, some (.validationFailed r)) =>
      (evs, ["Error validation failed: " ++ r], some 1)
    | (evs, some (.pyRaise m)) => (evs, [m], some 1)
    | (evs, none) => (evs, [], none)

/-- One call to the external schema service. -/
inductive SchemaCall where
  | get
  | delete_all
  | create (s : SchemaDocument)
deriving DecidableEq, Repr

/-- Function `_delete_all(client)`: fetch the schema, delete all classes, recreate the
classes from the captured snapshot. -/
def _delete_all (remoteSchema : SchemaDocument) : List SchemaCall :=
  [.get, .delete_all, .create remoteSchema]

/-- Function `delete_all_data(client, force)`.  `answerYes` — modelled from the spec:
`semi.prompt.is_question_answer_yes` (not under `src/`) is the interactive
confirmation prompt, a yes/no answer.  With `force` the code deletes and then
calls `sys.exit(0)`; without it, a negative answer exits with status 0 before
any schema call, and a positive answer deletes and returns normally. -/
def delete_all_data (remoteSchema : SchemaDocument) (force : Bool)
    (answerYes : Bool) : List SchemaCall × Option Nat :=
  if force then (_delete_all remoteSchema, some 0)
  else if !answerYes then ([], some 0)
  else (_delete_all remoteSchema, none)

/-- One entry of a weaviate batch-create result list, as read by
`_exit_on_error`: `entry.get("result", {}).get("errors")`. -/
structure BatchEntry where
  result : Option (Option String)
deriving DecidableEq, Repr

/-- Expression `entry.get("result", {}).get("errors")`: the error carried by one batch
result entry, if any. -/
def entryError (e : BatchEntry) : Option String :=
  e.result.getD none

/-- Method `DataFileImporter._exit_on_error(batch_results)`: print every non-null
error; with `fail_on_error` set, `sys.exit(1)` at the first one, leaving the
remaining entries uninspected.  Returns the printed errors and the forced
exit status. -/
def _exit_on_error (fail_on_error : Bool) : List BatchEntry → List String × Option Nat
  | [] => ([], none)
  | e :: rest =>
    match entryError e with
    | none => _exit_on_error fail_on_error rest
    | some err =>
      if fail_on_error then ([err], some 1)
      else
        let r := _exit_on_error fail_on_error rest
        (err :: r.1, r.2)

/-- The batched write service invoking the `_exit_on_error` callback after
every batch submission: a `sys.exit` inside the callback prevents every later
batch from being submitted or inspected. -/
def run_batches (fail_on_error : Bool) : List (List BatchEntry) → List String × Option Nat
  | [] => ([], none)
  | b :: rest =>
    match _exit_on_error fail_on_error b with
    | (printed, some code) => (printed, some code)
    | (printed, none) =>
      let r := run_batches fail_on_error rest
      (printed ++ r.1, r.2)

/-! ## Helper lemmas -/

theorem pyDictGet_insert_self {V : Type} (d : List (String × V)) (k : String) (v : V) :
    pyDictGet (pyDictInsert d k v) k = some v := by
  induction d with
  | nil => simp [pyDictGet, pyDictInsert]
  | cons hd tl ih =>
    by_cases h : hd.1 = k
    · simp [pyDictInsert, pyDictGet, h]
    · simpa [pyDictInsert, pyDictGet, h, List.find?] using ih

theorem pyDictGet_insert_ne {V : Type} (d : List (String × V)) (k k' : String) (v : V)
    (h : k' ≠ k) : pyDictGet (pyDictInsert d k v) k' = pyDictGet d k' := by
  have hkk : (k == k') = false := by simp [Ne.symm h]
  induction d with
  | nil => simp [pyDictGet, pyDictInsert, List.find?, hkk]
  | cons hd tl ih =>
    obtain ⟨k0, v0⟩ := hd
    by_cases hk : k0 = k
    · subst hk
      simp [pyDictInsert, pyDictGet, List.find?, hkk]
    · have h1 : (k0 == k) = false := by simp [hk]
      by_cases hk' : k0 = k'
      · subst hk'
        simp [pyDictInsert, pyDictGet, List.find?, h1]
      · have h2 : (k0 == k') = false := by simp [hk']
        simp only [pyDictInsert, h1, if_neg, Bool.false_eq_true, ite_false]
        simp only [pyDictGet, List.find?, h2] at ih ⊢
        exact ih

theorem pyDictInsert_of_fresh {V : Type} (d : List (String × V)) (k : String) (v : V)
    (h : ∀ q ∈ d, q.1 ≠ k) : pyDictInsert d k v = d ++ [(k, v)] := by
  induction d with
  | nil => rfl
  | cons hd tl ih =>
    have h1 : hd.1 ≠ k := h hd (List.mem_cons_self hd tl)
    have h2 : ∀ q ∈ tl, q.1 ≠ k := fun q hq => h q (List.mem_cons_of_mem hd hq)
    simp [pyDictInsert, h1, ih h2]

theorem splitCh_ne_nil (sep : Char) (l : List Char) : splitCh sep l ≠ [] := by
  cases l with
  | nil => simp [splitCh]
  | cons c cs =>
    simp only [splitCh]
    match splitCh sep cs with
    | [] => simp
    | s :: ss =>
      by_cases h : c = sep <;> simp [h]

theorem splitCh_of_not_mem (sep : Char) (l : List Char) (h : sep ∉ l) :
    splitCh sep l = [l] := by
  induction l with
  | nil => rfl
  | cons c cs ih =>
    have hc : c ≠ sep := fun e => h (e ▸ List.mem_cons_self c cs)
    have hcs : sep ∉ cs := fun m => h (List.mem_cons_of_mem c m)
    simp [splitCh, ih hcs, hc]

theorem string_mk_toList (s : String) : String.mk s.toList = s := rfl

theorem pySplit_getLastD_no_sep (b : String) (h : '/' ∉ b.toList) :
    (pySplit b '/').getLastD "" = b := by
  unfold pySplit
  rw [splitCh_of_not_mem '/' b.toList h]
  simp [string_mk_toList]

theorem gsp_spec_of_nonempty :
    ∀ props : List PropertyDescriptor, (∀ p ∈ props, p.dataType ≠ []) →
    _get_schema_properties props =
      some ((classPartitionSpec props).primitive, (classPartitionSpec props).ref) := by
  intro props
  induction props with
  | nil => intro _; rfl
  | cons p rest ih =>
    intro h
    have hp : p.dataType ≠ [] := h p (List.mem_cons_self p rest)
    have hrest : ∀ q ∈ rest, q.dataType ≠ [] :=
      fun q hq => h q (List.mem_cons_of_mem p hq)
    cases hdt : p.dataType with
    | nil => exact absurd hdt hp
    | cons t ts =>
      cases hprim : is_primitive_prop t <;>
        simp [_get_schema_properties, hdt, ih hrest, classPartitionSpec,
          List.filter, hprim]

theorem gsp_success_nonempty :
    ∀ (props : List PropertyDescriptor) (x : List String × List String),
    _get_schema_properties props = some x → ∀ p ∈ props, p.dataType ≠ [] := by
  intro props
  induction props with
  | nil => intro x _ p hp; cases hp
  | cons p rest ih =>
    intro x h q hq
    cases hdt : p.dataType with
    | nil => rw [_get_schema_properties, hdt] at h; cases h
    | cons t ts =>
      rw [_get_schema_properties, hdt] at h
      cases hrec : _get_schema_properties rest with
      | none => rw [hrec] at h; cases h
      | some y =>
        rcases List.mem_cons.mp hq with rfl | hq'
        · simp [hdt]
        · exact ih y hrec q hq'

theorem gsp_eq_spec (props : List PropertyDescriptor) (prim refs : List String)
    (h : _get_schema_properties props = some (prim, refs)) :
    prim = (classPartitionSpec props).primitive ∧
    refs = (classPartitionSpec props).ref := by
  have hne := gsp_success_nonempty props (prim, refs) h
  have := gsp_spec_of_nonempty props hne
  rw [this] at h
  exact ⟨(Prod.mk.injEq _ _ _ _ ▸ Option.some.inj h).1.symm,
    (Prod.mk.injEq _ _ _ _ ▸ Option.some.inj h).2.symm⟩

theorem dissect_schema_aux_eq_fold :
    ∀ (cs : List ClassDescriptor) (acc : SchemaDefinition),
    (∀ c ∈ cs, ∀ p ∈ c.properties, p.dataType ≠ []) →
    dissect_schema_aux cs acc =
      some (cs.foldl
        (fun a c => pyDictInsert a c.className (classPartitionSpec c.properties)) acc) := by
  intro cs
  induction cs with
  | nil => intro acc _; rfl
  | cons c rest ih =>
    intro acc h
    have hc : ∀ p ∈ c.properties, p.dataType ≠ [] := h c (List.mem_cons_self c rest)
    have hrest : ∀ c' ∈ rest, ∀ p ∈ c'.properties, p.dataType ≠ [] :=
      fun c' hc' => h c' (List.mem_cons_of_mem c hc')
    rw [dissect_schema_aux, gsp_spec_of_nonempty c.properties hc]
    simpa [List.foldl] using ih _ hrest

theorem dissect_schema_aux_untouched :
    ∀ (cs : List ClassDescriptor) (acc sd : SchemaDefinition) (k : String),
    dissect_schema_aux cs acc = some sd →
    (∀ c ∈ cs, c.className ≠ k) →
    pyDictGet sd k = pyDictGet acc k := by
  intro cs
  induction cs with
  | nil =>
    intro acc sd k h _
    rw [dissect_schema_aux] at h
    rw [Option.some.inj h]
  | cons c rest ih =>
    intro acc sd k h hk
    rw [dissect_schema_aux] at h
    cases hgs : _get_schema_properties c.properties with
    | none => rw [hgs] at h; cases h
    | some pr =>
      obtain ⟨prim, refs⟩ := pr
      rw [hgs] at h
      simp only [Option.some_bind] at h
      have htail : ∀ c' ∈ rest, c'.className ≠ k :=
        fun c' hc' => hk c' (List.mem_cons_of_mem c hc')
      rw [ih _ _ _ h htail,
        pyDictGet_insert_ne _ _ _ _ (Ne.symm (hk c (List.mem_cons_self c rest)))]

theorem dissect_schema_aux_lookup :
    ∀ (cs : List ClassDescriptor) (acc sd : SchemaDefinition),
    dissect_schema_aux cs acc = some sd →
    cs.Pairwise (fun a b => a.className ≠ b.className) →
    ∀ c ∈ cs, ∃ prim refs,
      _get_schema_properties c.properties = some (prim, refs) ∧
      pyDictGet sd c.className = some ⟨prim, refs⟩ := by
  intro cs
  induction cs with
  | nil => intro acc sd _ _ c hc; cases hc
  | cons c0 rest ih =>
    intro acc sd h hpw c hc
    obtain ⟨hhead, htail⟩ := List.pairwise_cons.mp hpw
    rw [dissect_schema_aux] at h
    cases hgs : _get_schema_properties c0.properties with
    | none => rw [hgs] at h; cases h
    | some pr =>
      obtain ⟨prim, refs⟩ := pr
      rw [hgs] at h
      simp only [Option.some_bind] at h
      rcases List.mem_cons.mp hc with rfl | hc'
      · refine ⟨prim, refs, hgs, ?_⟩
        rw [dissect_schema_aux_untouched rest _ sd c.className h
          (fun c' hc' => Ne.symm (hhead c' hc'))]
        exact pyDictGet_insert_self _ _ _
      · exact ih _ _ h htail c hc'

theorem classPartitionSpec_mem (props : List PropertyDescriptor)
    (hnd : (props.map PropertyDescriptor.name).Nodup)
    (p : PropertyDescriptor) (hp : p ∈ props) :
    (is_primitive_prop (p.dataType.headD "") = true →
      p.name ∈ (classPartitionSpec props).primitive ∧
      p.name ∉ (classPartitionSpec props).ref) ∧
    (is_primitive_prop (p.dataType.headD "") = false →
      p.name ∈ (classPartitionSpec props).ref ∧
      p.name ∉ (classPartitionSpec props).primitive) := by
  have hpw : props.Pairwise (fun a b => a.name ≠ b.name) := List.pairwise_map.mp hnd
  have hsym : Symmetric (fun a b : PropertyDescriptor => a.name ≠ b.name) :=
    fun _ _ hxy e => hxy e.symm
  have hinj : ∀ a ∈ props, ∀ b ∈ props, a.name = b.name → a = b := by
    intro a ha b hb hab
    by_contra hne
    exact List.Pairwise.forall hsym hpw ha hb hne hab
  constructor
  · intro ht
    rw [List.headD_eq_head?_getD] at ht
    constructor
    · exact List.mem_map.mpr ⟨p, List.mem_filter.mpr ⟨hp, by simp [ht]⟩, rfl⟩
    · intro hmem
      obtain ⟨q, hq, hqname⟩ := List.mem_map.mp hmem
      obtain ⟨hq1, hq2⟩ := List.mem_filter.mp hq
      have hqp : q = p := hinj q hq1 p hp hqname
      subst hqp
      simp [ht] at hq2
  · intro ht
    rw [List.headD_eq_head?_getD] at ht
    constructor
    · exact List.mem_map.mpr ⟨p, List.mem_filter.mpr ⟨hp, by simp [ht]⟩, rfl⟩
    · intro hmem
      obtain ⟨q, hq, hqname⟩ := List.mem_map.mp hmem
      obtain ⟨hq1, hq2⟩ := List.mem_filter.mp hq
      have hqp : q = p := hinj q hq1 p hp hqname
      subst hqp
      simp [ht] at hq2

theorem vop_none_iff (cn : String) (oid : Option String) (cd : ClassDefinition) :
    ∀ (props acc : List (String × JValue)) (refs : List RefRecord),
    (∀ p ∈ props, p.1 ∉ cd.primitive → p.1 ∈ cd.ref → ∃ l, pyIterRefs p.2 = .ok l) →
    ((validate_obj_props cn oid cd props acc refs).2.2 = none ↔
      ∀ p ∈ props, p.1 ∈ cd.primitive ∨ p.1 ∈ cd.ref) := by
  intro props
  induction props with
  | nil => intro acc refs _; simp [validate_obj_props]
  | cons pv rest ih =>
    intro acc refs hwf
    obtain ⟨n, v⟩ := pv
    have hwfr : ∀ p ∈ rest, p.1 ∉ cd.primitive → p.1 ∈ cd.ref → ∃ l, pyIterRefs p.2 = .ok l :=
      fun p hp => hwf p (List.mem_cons_of_mem _ hp)
    by_cases hn : n ∈ cd.primitive
    · simp only [validate_obj_props, if_pos hn]
      rw [ih _ _ hwfr, List.forall_mem_cons]
      simp [hn]
    · by_cases hr : n ∈ cd.ref
      · obtain ⟨l, hl⟩ := hwf (n, v) (List.mem_cons_self _ _) hn hr
        simp only [validate_obj_props, if_neg hn, if_pos hr, hl]
        rw [ih _ _ hwfr, List.forall_mem_cons]
        simp [hr]
      · simp only [validate_obj_props, if_neg hn, if_neg hr]
        rw [List.forall_mem_cons]
        simp [hn, hr]

theorem vop_first_unknown (cn : String) (oid : Option String) (cd : ClassDefinition) :
    ∀ (pre : List (String × JValue)) (n : String) (v : JValue)
      (post acc : List (String × JValue)) (refs : List RefRecord),
    (∀ q ∈ pre, q.1 ∈ cd.primitive ∨ (q.1 ∈ cd.ref ∧ ∃ l, pyIterRefs q.2 = .ok l)) →
    n ∉ cd.primitive → n ∉ cd.ref →
    (validate_obj_props cn oid cd (pre ++ (n, v) :: post) acc refs).2.2 =
      some (.validationFailed
        ("Property " ++ n ++ " of class " ++ cn ++ " not in schema!")) := by
  intro pre
  induction pre with
  | nil =>
    intro n v post acc refs _ hn hr
    simp [validate_obj_props, hn, hr]
  | cons q rest ih =>
    intro n v post acc refs hpre hn hr
    obtain ⟨qn, qv⟩ := q
    have hrest : ∀ q ∈ rest, q.1 ∈ cd.primitive ∨ (q.1 ∈ cd.ref ∧ ∃ l, pyIterRefs q.2 = .ok l) :=
      fun q hq => hpre q (List.mem_cons_of_mem _ hq)
    by_cases hqp : qn ∈ cd.primitive
    · simp only [List.cons_append, validate_obj_props, if_pos hqp]
      exact ih n v post _ _ hrest hn hr
    · rcases hpre (qn, qv) (List.mem_cons_self _ _) with hq | ⟨hq, l, hl⟩
      · exact absurd hq hqp
      · simp only [List.cons_append, validate_obj_props, if_neg hqp, if_pos hq, hl]
        exact ih n v post _ _ hrest hn hr

theorem vop_success (cn : String) (oid : Option String) (cd : ClassDefinition)
    (hdisj : ∀ m ∈ cd.primitive, m ∉ cd.ref) :
    ∀ (props acc : List (String × JValue)) (refs : List RefRecord),
    (props.map Prod.fst).Nodup →
    (∀ p ∈ props, p.1 ∈ cd.primitive ∨ (p.1 ∈ cd.ref ∧ ∃ l, p.2 = JValue.jrefs l)) →
    (∀ p ∈ props, ∀ q ∈ acc, p.1 ≠ q.1) →
    validate_obj_props cn oid cd props acc refs =
      (acc ++ props.filter (fun p => decide (p.1 ∈ cd.primitive)),
       refs ++ (props.filter (fun p => decide (p.1 ∈ cd.ref))).flatMap
         (fun p => dissect_reference p.2.refList cn oid p.1),
       none) := by
  intro props
  induction props with
  | nil => intro acc refs _ _ _; simp [validate_obj_props]
  | cons pv rest ih =>
    intro acc refs hnd hknown hfresh
    obtain ⟨n, v⟩ := pv
    have hnd' : (rest.map Prod.fst).Nodup := (List.nodup_cons.mp (by simpa using hnd)).2
    have hn_not : n ∉ rest.map Prod.fst := (List.nodup_cons.mp (by simpa using hnd)).1
    have hknown' : ∀ p ∈ rest, p.1 ∈ cd.primitive ∨ (p.1 ∈ cd.ref ∧ ∃ l, p.2 = JValue.jrefs l) :=
      fun p hp => hknown p (List.mem_cons_of_mem _ hp)
    by_cases hn : n ∈ cd.primitive
    · have hacc : ∀ q ∈ acc, q.1 ≠ n :=
        fun q hq => Ne.symm (hfresh (n, v) (List.mem_cons_self _ _) q hq)
      have hfresh' : ∀ p ∈ rest, ∀ q ∈ acc ++ [(n, v)], p.1 ≠ q.1 := by
        intro p hp q hq
        rcases List.mem_append.mp hq with hq1 | hq2
        · exact hfresh p (List.mem_cons_of_mem _ hp) q hq1
        · have hq' : q = (n, v) := by simpa using hq2
          subst hq'
          show p.1 ≠ n
          intro e
          exact hn_not (e ▸ List.mem_map_of_mem Prod.fst hp)
      simp only [validate_obj_props, if_pos hn, pyDictInsert_of_fresh acc n v hacc]
      rw [ih _ _ hnd' hknown' hfresh']
      have hnr : n ∉ cd.ref := hdisj n hn
      simp [List.filter_cons, hn, hnr, List.append_assoc]
    · rcases hknown (n, v) (List.mem_cons_self _ _) with hq | ⟨hr, l, hveq⟩
      · exact absurd hq hn
      · subst hveq
        simp only [validate_obj_props, if_neg hn, if_pos hr, pyIterRefs]
        rw [ih _ _ hnd' hknown' (fun p hp => hfresh p (List.mem_cons_of_mem _ hp))]
        simp [List.filter_cons, hn, hr, JValue.refList, List.append_assoc]

theorem dissect_reference_length (refs : List RefDescriptor) (fc : String)
    (fid : Option String) (fp : String) :
    (dissect_reference refs fc fid fp).length = refs.length := by
  simp [dissect_reference]

theorem exit_on_error_no_failfast :
    ∀ entries : List BatchEntry,
    _exit_on_error false entries = (entries.filterMap entryError, none) := by
  intro entries
  induction entries with
  | nil => rfl
  | cons e rest ih =>
    cases he : entryError e with
    | none => simp [_exit_on_error, he, ih, List.filterMap_cons]
    | some err => simp [_exit_on_error, he, ih, List.filterMap_cons]

theorem exit_on_error_clean (fo : Bool) :
    ∀ entries : List BatchEntry, (∀ x ∈ entries, entryError x = none) →
    _exit_on_error fo entries = ([], none) := by
  intro entries
  induction entries with
  | nil => intro _; rfl
  | cons e rest ih =>
    intro h
    have he : entryError e = none := h e (List.mem_cons_self _ _)
    simp [_exit_on_error, he, ih (fun x hx => h x (List.mem_cons_of_mem _ hx))]

theorem exit_on_error_failfast :
    ∀ (pre : List BatchEntry) (e : BatchEntry) (post : List BatchEntry) (err : String),
    (∀ x ∈ pre, entryError x = none) → entryError e = some err →
    _exit_on_error true (pre ++ e :: post) = ([err], some 1) := by
  intro pre
  induction pre with
  | nil => intro e post err _ he; simp [_exit_on_error, he]
  | cons x rest ih =>
    intro e post err hpre he
    have hx : entryError x = none := hpre x (List.mem_cons_self _ _)
    simp only [List.cons_append, _exit_on_error, hx]
    exact ih e post err (fun y hy => hpre y (List.mem_cons_of_mem _ hy)) he

theorem run_batches_skips_clean_front :
    ∀ (bpre rest : List (List BatchEntry)),
    (∀ b ∈ bpre, ∀ x ∈ b, entryError x = none) →
    run_batches true (bpre ++ rest) = run_batches true rest := by
  intro bpre
  induction bpre with
  | nil => intro rest _; rfl
  | cons b bs ih =>
    intro rest h
    have hb : _exit_on_error true b = ([], none) :=
      exit_on_error_clean true b (h b (List.mem_cons_self _ _))
    simp [run_batches, hb, ih rest (fun b' hb' => h b' (List.mem_cons_of_mem _ hb'))]

/-! ## Claim theorems -/

/-- C1 (amended): for every schema document on which derivation succeeds,
with distinct class names and distinct property names within each class, the
derived SchemaDefinition places each property name of each class in the
primitive set exactly when the first element of its data-type tag list is one
of the fixed primitive tags, and in the reference set exactly otherwise, so
each such name appears in exactly one of the two sets.  (Amended from the
original claim, which quantified over all schema documents: a class listing
the same property name under both a primitive and a non-primitive data type
places the name in both sets — see the counterexample theorem.) -/
theorem schema_partition_exactly_one (doc : SchemaDocument) (sd : SchemaDefinition)
    (hsd : dissect_schema doc = some sd)
    (hcls : (doc.classes.map ClassDescriptor.className).Nodup) :
    ∀ c ∈ doc.classes, (c.properties.map PropertyDescriptor.name).Nodup →
    ∃ cd, pyDictGet sd c.className = some cd ∧
      ∀ p ∈ c.properties,
        (is_primitive_prop (p.dataType.headD "") = true →
          p.name ∈ cd.primitive ∧ p.name ∉ cd.ref) ∧
        (is_primitive_prop (p.dataType.headD "") = false →
          p.name ∈ cd.ref ∧ p.name ∉ cd.primitive) := by
  intro c hc hnd
  have hpw : doc.classes.Pairwise (fun a b => a.className ≠ b.className) :=
    List.pairwise_map.mp hcls
  have hsd' : dissect_schema_aux doc.classes [] = some sd := hsd
  obtain ⟨prim, refs, hgs, hlook⟩ :=
    dissect_schema_aux_lookup doc.classes [] sd hsd' hpw c hc
  obtain ⟨hprim, hrefs⟩ := gsp_eq_spec c.properties prim refs hgs
  subst hprim
  subst hrefs
  exact ⟨_, hlook, fun p hp => classPartitionSpec_mem c.properties hnd p hp⟩

/-- C1 witness: a concrete well-formed schema document on which the amended
claim is instantiated. -/
theorem schema_partition_exactly_one_witness :
    ∃ cd, pyDictGet [("Doc", ClassDefinition.mk ["title"] ["refs"])] "Doc" = some cd ∧
      ∀ p ∈ [PropertyDescriptor.mk "title" ["text"], PropertyDescriptor.mk "refs" ["Doc"]],
        (is_primitive_prop (p.dataType.headD "") = true →
          p.name ∈ cd.primitive ∧ p.name ∉ cd.ref) ∧
        (is_primitive_prop (p.dataType.headD "") = false →
          p.name ∈ cd.ref ∧ p.name ∉ cd.primitive) :=
  schema_partition_exactly_one
    ⟨[⟨"Doc", [⟨"title", ["text"]⟩, ⟨"refs", ["Doc"]⟩]⟩]⟩
    [("Doc", ⟨["title"], ["refs"]⟩)] (by decide) (by decide)
    ⟨"Doc", [⟨"title", ["text"]⟩, ⟨"refs", ["Doc"]⟩]⟩ (by decide) (by decide)

/-- C1 counterexample: a schema document whose class lists the property name
`p` once with primitive tag `text` and once with non-primitive tag
`OtherClass`; the derived definition places `p` in both the primitive and the
reference list, so `p` does not appear in exactly one of the two sets. -/
theorem schema_partition_counterexample :
    dissect_schema ⟨[⟨"C", [⟨"p", ["text"]⟩, ⟨"p", ["OtherClass"]⟩]⟩]⟩ =
      some [("C", ⟨["p"], ["p"]⟩)] ∧
    ¬(("p" ∈ (ClassDefinition.mk ["p"] ["p"]).primitive) ↔
      ¬("p" ∈ (ClassDefinition.mk ["p"] ["p"]).ref)) := by
  constructor
  · decide
  · decide

/-- C2: validation of a single raw object calls `_exit_validation_failed`
(printing the offending name and exiting with status 1) exactly when the
object's class is absent from the dissected schema or some property name is
in neither the class's primitive nor its reference list; an unknown class
leaves the accumulated records untouched, and the reported message names the
offending class or (first offending) property. -/
theorem validate_obj_error_iff (schema : SchemaDefinition) (st : VState) (obj : RawObject) :
    (pyDictGet schema obj.className = none →
      validate_obj schema st obj =
        (st, some (.validationFailed ("Class " ++ obj.className ++ " not in schema!")))) ∧
    (∀ cd, pyDictGet schema obj.className = some cd →
      (∀ p ∈ obj.properties, p.1 ∉ cd.primitive → p.1 ∈ cd.ref →
        ∃ l, pyIterRefs p.2 = .ok l) →
      (((validate_obj schema st obj).2 = none) ↔
        ∀ p ∈ obj.properties, p.1 ∈ cd.primitive ∨ p.1 ∈ cd.ref) ∧
      (∀ pre n v post,
        obj.properties = pre ++ (n, v) :: post →
        (∀ q ∈ pre, q.1 ∈ cd.primitive ∨ (q.1 ∈ cd.ref ∧ ∃ l, pyIterRefs q.2 = .ok l)) →
        n ∉ cd.primitive → n ∉ cd.ref →
        (validate_obj schema st obj).2 =
          some (.validationFailed
            ("Property " ++ n ++ " of class " ++ obj.className ++ " not in schema!")))) ∧
    (∀ f, (validate_obj schema st obj).2 = some f → pyExitCode f = 1) := by
  refine ⟨?_, ?_, fun f _ => rfl⟩
  · intro h
    simp [validate_obj, h]
  · intro cd hcd hwf
    have hsnd : (validate_obj schema st obj).2 =
        (validate_obj_props obj.className obj.id cd obj.properties [] []).2.2 := by
      simp only [validate_obj, hcd]
      rcases hv : validate_obj_props obj.className obj.id cd obj.properties [] []
        with ⟨a, r, f⟩
      cases f <;> simp
    constructor
    · rw [hsnd]
      exact vop_none_iff obj.className obj.id cd obj.properties [] [] hwf
    · intro pre n v post hsplit hpre hn hr
      rw [hsnd, hsplit]
      exact vop_first_unknown obj.className obj.id cd pre n v post [] [] hpre hn hr

/-- C2 witness: an unknown class and an unknown property on concrete
objects. -/
theorem validate_obj_error_iff_witness :
    validate_obj [("Doc", ClassDefinition.mk ["title"] ["refs"])] ⟨[], []⟩
        ⟨"Nope", none, none, []⟩ =
      (⟨[], []⟩, some (.validationFailed "Class Nope not in schema!")) ∧
    (validate_obj [("Doc", ClassDefinition.mk ["title"] ["refs"])] ⟨[], []⟩
        ⟨"Doc", some "x", none, [("bad", .jnull)]⟩).2 =
      some (.validationFailed "Property bad of class Doc not in schema!") := by
  constructor
  · exact (validate_obj_error_iff _ _ _).1 (by decide)
  · exact ((validate_obj_error_iff [("Doc", ⟨["title"], ["refs"]⟩)] ⟨[], []⟩
        ⟨"Doc", some "x", none, [("bad", .jnull)]⟩).2.1
      ⟨["title"], ["refs"]⟩ (by decide)
      (by
        intro p hp h1 h2
        have hpe : p = ("bad", JValue.jnull) := by simpa using hp
        subst hpe
        exact absurd h2 (by decide))).2
      [] "bad" .jnull [] rfl (by simp) (by decide) (by decide)

/-- C3: a raw object that validates successfully (all property names known,
reference-valued properties carrying descriptor lists, the two sets disjoint,
property names distinct as in a Python dict) appends exactly one
`ObjectRecord` whose `data_object` is exactly the primitive-named properties
copied verbatim, and appends one `RefRecord` per descriptor of each
reference-named property. -/
theorem validate_obj_success_counts (schema : SchemaDefinition) (st : VState)
    (obj : RawObject) (cd : ClassDefinition)
    (hcd : pyDictGet schema obj.className = some cd)
    (hnd : (obj.properties.map Prod.fst).Nodup)
    (hdisj : ∀ m ∈ cd.primitive, m ∉ cd.ref)
    (hknown : ∀ p ∈ obj.properties,
      p.1 ∈ cd.primitive ∨ (p.1 ∈ cd.ref ∧ ∃ l, p.2 = JValue.jrefs l)) :
    validate_obj schema st obj =
      (⟨st.data_objects ++
          [⟨obj.className, obj.id, obj.vector,
            obj.properties.filter (fun p => decide (p.1 ∈ cd.primitive))⟩],
        st.data_references ++
          (obj.properties.filter (fun p => decide (p.1 ∈ cd.ref))).flatMap
            (fun p => dissect_reference p.2.refList obj.className obj.id p.1)⟩,
       none) ∧
    (validate_obj schema st obj).1.data_objects.length = st.data_objects.length + 1 ∧
    (validate_obj schema st obj).1.data_references.length =
      st.data_references.length +
        ((obj.properties.filter (fun p => decide (p.1 ∈ cd.ref))).map
          (fun p => p.2.refList.length)).sum := by
  have hvop := vop_success obj.className obj.id cd hdisj obj.properties [] [] hnd hknown
    (fun p _ q hq => absurd hq (List.not_mem_nil q))
  have hmain : validate_obj schema st obj =
      (⟨st.data_objects ++
          [⟨obj.className, obj.id, obj.vector,
            obj.properties.filter (fun p => decide (p.1 ∈ cd.primitive))⟩],
        st.data_references ++
          (obj.properties.filter (fun p => decide (p.1 ∈ cd.ref))).flatMap
            (fun p => dissect_reference p.2.refList obj.className obj.id p.1)⟩,
       none) := by
    simp [validate_obj, hcd, hvop]
  refine ⟨hmain, ?_, ?_⟩
  · rw [hmain]
    simp
  · rw [hmain]
    simp only [List.length_append, List.length_flatMap]
    have hfun : ∀ p ∈ obj.properties.filter (fun p => decide (p.1 ∈ cd.ref)),
        (List.length ∘ fun p => dissect_reference p.2.refList obj.className obj.id p.1) p =
          p.2.refList.length :=
      fun p _ => dissect_reference_length p.2.refList obj.className obj.id p.1
    rw [List.map_congr_left hfun]

/-- C3 witness: the spec's end-to-end example object with one primitive and
one reference property carrying one descriptor. -/
theorem validate_obj_success_counts_witness :
    (validate_obj [("Doc", ClassDefinition.mk ["title"] ["refs"])] ⟨[], []⟩ ⟨"Doc", some "x1", none, [("title", .jstr "hi"), ("refs", .jrefs [⟨some "scheme://host/Doc/y1"⟩])]⟩).1.data_objects.length = 1 ∧
    (validate_obj [("Doc", ClassDefinition.mk ["title"] ["refs"])] ⟨[], []⟩ ⟨"Doc", some "x1", none, [("title", .jstr "hi"), ("refs", .jrefs [⟨some "scheme://host/Doc/y1"⟩])]⟩).1.data_references.length = 1 := by
  have h := validate_obj_success_counts [("Doc", ⟨["title"], ["refs"]⟩)] ⟨[], []⟩
    ⟨"Doc", some "x1", none,
      [("title", .jstr "hi"), ("refs", .jrefs [⟨some "scheme://host/Doc/y1"⟩])]⟩
    ⟨["title"], ["refs"]⟩ (by decide) (by decide) (by decide)
    (by
      intro p hp
      have hpe : p = ("title", JValue.jstr "hi") ∨
          p = ("refs", JValue.jrefs [⟨some "scheme://host/Doc/y1"⟩]) := by
        simpa using hp
      rcases hpe with hpe | hpe
      · subst hpe; left; decide
      · subst hpe; right; exact ⟨by decide, [⟨some "scheme://host/Doc/y1"⟩], rfl⟩)
  exact ⟨by simpa using h.2.1, by simpa using h.2.2⟩

/-- C4: each produced `RefRecord` carries the enclosing object's id, class
and property and targets the last segment of the descriptor's beacon split on
`/`; the spec's example beacon yields `abc-123`, and a beacon with no `/`
yields the whole beacon string. -/
theorem dissect_reference_target_id :
    (∀ (refs : List RefDescriptor) (fc : String) (fid : Option String) (fp : String),
      (dissect_reference refs fc fid fp).length = refs.length ∧
      ∀ i : Nat, (dissect_reference refs fc fid fp)[i]? =
        (refs[i]?).map (fun ref =>
          ⟨fid, fc, fp, (pySplit (ref.beacon.getD "e") '/').getLastD ""⟩)) ∧
    dissect_reference [⟨some "weaviate://localhost/SomeClass/abc-123"⟩]
        "SomeClass" (some "x") "p" =
      [⟨some "x", "SomeClass", "p", "abc-123"⟩] ∧
    (∀ b : String, '/' ∉ b.toList →
      ∀ (fc : String) (fid : Option String) (fp : String),
      dissect_reference [⟨some b⟩] fc fid fp = [⟨fid, fc, fp, b⟩]) := by
  refine ⟨fun refs fc fid fp => ⟨by simp [dissect_reference], ?_⟩, by decide, ?_⟩
  · intro i
    simp [dissect_reference, List.getElem?_map]
  · intro b hb fc fid fp
    have h := pySplit_getLastD_no_sep b hb
    rw [List.getLastD_eq_getLast?] at h
    simp [dissect_reference, h]

/-- C4 witness: a separator-free beacon keeps the whole string as target
id. -/
theorem dissect_reference_target_id_witness :
    dissect_reference [⟨some "abc-123"⟩] "C" none "p" = [⟨none, "C", "p", "abc-123"⟩] :=
  dissect_reference_target_id.2.2 "abc-123" (by decide) "C" none "p"

/-- C5: with fail-on-error disabled every entry of every batch with a
non-null error is reported and processing continues; with it enabled the
process exits with status 1 at the first erroring entry, and the result does
not depend on the entries after it or on any later batch. -/
theorem batch_error_reporting :
    (∀ batches : List (List BatchEntry),
      run_batches false batches = (batches.flatten.filterMap entryError, none)) ∧
    (∀ (bpre : List (List BatchEntry)) (pre : List BatchEntry) (e : BatchEntry)
       (post : List BatchEntry) (brest : List (List BatchEntry)) (err : String),
      (∀ b ∈ bpre, ∀ x ∈ b, entryError x = none) →
      (∀ x ∈ pre, entryError x = none) → entryError e = some err →
      run_batches true (bpre ++ (pre ++ e :: post) :: brest) = ([err], some 1)) := by
  constructor
  · intro batches
    induction batches with
    | nil => rfl
    | cons b rest ih =>
      simp [run_batches, exit_on_error_no_failfast b, ih, List.filterMap_append]
  · intro bpre pre e post brest err hbpre hpre he
    rw [run_batches_skips_clean_front bpre _ hbpre]
    simp [run_batches, exit_on_error_failfast pre e post err hpre he]

/-- C5 witness: two concrete batch sequences, one per mode. -/
theorem batch_error_reporting_witness :
    run_batches false [[⟨some (some "e1")⟩, ⟨none⟩], [⟨some none⟩, ⟨some (some "e2")⟩]] =
      (["e1", "e2"], none) ∧
    run_batches true [[⟨none⟩], [⟨some (some "e1")⟩, ⟨some (some "e2")⟩],
        [⟨some (some "e3")⟩]] =
      (["e1"], some 1) := by
  constructor
  · rw [batch_error_reporting.1]
    decide
  · exact batch_error_reporting.2 [[⟨none⟩]] [] ⟨some (some "e1")⟩
      [⟨some (some "e2")⟩] [[⟨some (some "e3")⟩]] "e1"
      (by decide) (by decide) (by decide)

/-- C6: `DataFileImporter.load` validates and splits the whole document
before the batcher sees anything: on a validation failure the trace contains
the schema fetch and no write call at all, and on success the trace is the
fetch followed by the write calls derived from the fully validated state. -/
theorem load_no_writes_before_validation (schema : SchemaDocument) (data : DataDocument) :
    (∀ st f, validate_and_split data schema = (st, some f) →
      (DataFileImporter_load schema data).1.filter LoadEvent.isWrite = [] ∧
      DataFileImporter_load schema data = ([.fetchSchema], some f)) ∧
    (∀ st, validate_and_split data schema = (st, none) →
      DataFileImporter_load schema data =
        (.fetchSchema ::
          (st.data_objects.map (fun o => .write (.add_data_object o)) ++
           st.data_references.map (fun r => .write (.add_reference r)) ++
           [.write .flush]), none)) := by
  constructor
  · intro st f h
    have hload : DataFileImporter_load schema data = ([.fetchSchema], some f) := by
      simp only [DataFileImporter_load, h]
    exact ⟨by rw [hload]; rfl, hload⟩
  · intro st h
    simp only [DataFileImporter_load, h]

/-- C6 witness: a document whose only object has a class absent from an empty
remote schema; validation fails and zero write calls are traced. -/
theorem load_no_writes_before_validation_witness :
    (DataFileImporter_load ⟨[]⟩ ⟨[⟨"C", none, none, []⟩]⟩).1.filter LoadEvent.isWrite = [] ∧
    DataFileImporter_load ⟨[]⟩ ⟨[⟨"C", none, none, []⟩]⟩ =
      ([.fetchSchema], some (.validationFailed "Class C not in schema!")) :=
  (load_no_writes_before_validation ⟨[]⟩ ⟨[⟨"C", none, none, []⟩]⟩).1 ⟨[], []⟩
    (.validationFailed "Class C not in schema!") (by decide)

/-- C8 (amended): when the input file's contents are not valid JSON, the run
reports the parse error and exits with status 1, with no schema fetch and no
write call; when the contents parse to a top-level value that is
not a mapping, the run still exits with status 1 with an error reported and
no write call, but only after the schema fetch has been issued.  (Amended
from the original claim, which asserted that every input not parseable as the
expected document structure fails before the schema fetch: a top-level JSON
array fails only after the fetch, and a top-level mapping without a `classes`
key does not fail at all — see the counterexample theorem.) -/
theorem malformed_input_aborts (msg : String) (schema : SchemaDocument) :
    (import_data_from_file (.syntaxError msg) schema = ([], [msg], some 1) ∧
      (import_data_from_file (.syntaxError msg) schema).1.filter LoadEvent.isWrite = [] ∧
      LoadEvent.fetchSchema ∉ (import_data_from_file (.syntaxError msg) schema).1) ∧
    ((import_data_from_file (.nonMapping msg) schema).1 = [.fetchSchema] ∧
      (import_data_from_file (.nonMapping msg) schema).1.filter LoadEvent.isWrite = [] ∧
      (import_data_from_file (.nonMapping msg) schema).2.2 = some 1 ∧
      (import_data_from_file (.nonMapping msg) schema).2.1 ≠ []) := by
  refine ⟨⟨rfl, rfl, by simp [import_data_from_file]⟩, ?_⟩
  cases h : dissect_schema schema <;>
    simp [import_data_from_file, h, LoadEvent.isWrite]

/-- C8 counterexample: an input parsing to a top-level JSON array is not of
the expected document structure, yet the run fetches the schema before
failing (`fetchSchema` is in the trace); and an input parsing to a mapping
without a `classes` key is also not of the expected structure, yet the run
does not fail at all — it completes normally (no forced exit) and issues a
`flush` write call. -/
theorem malformed_input_counterexample :
    LoadEvent.fetchSchema ∈
      (import_data_from_file
        (.nonMapping "AttributeError: list has no attribute get") ⟨[]⟩).1 ∧
    import_data_from_file (.mapping ⟨[]⟩) ⟨[]⟩ =
      ([.fetchSchema, .write .flush], [], none) := by
  constructor
  · decide
  · decide

/-- C9: the destructive fetch–delete–recreate sequence is issued exactly when
the force flag is set or the prompt is answered yes; otherwise the process
exits with status 0 having issued no schema calls. -/
theorem delete_all_gated (schema : SchemaDocument) (force answerYes : Bool) :
    ((delete_all_data schema force answerYes).1 =
        [SchemaCall.get, SchemaCall.delete_all, SchemaCall.create schema] ↔
      (force = true ∨ answerYes = true)) ∧
    (force = false → answerYes = false →
      delete_all_data schema force answerYes = ([], some 0)) := by
  cases force <;> cases answerYes <;> simp [delete_all_data, _delete_all]

/-- C9 witness: no force and a negative answer issue no schema calls and exit
with status 0. -/
theorem delete_all_gated_witness :
    delete_all_data ⟨[]⟩ false false = ([], some 0) :=
  (delete_all_gated ⟨[]⟩ false false).2 rfl rfl

/-- C7 (amended): Schema Index derivation is a pure deterministic function on
every schema document in which each property carries at least one data-type
tag: there it never fails and equals the total spec-side derivation
`schemaIndexSpec`, so two runs on the same document yield the identical
SchemaDefinition.  (Amended from the original claim, which asserted the
derivation never fails on any schema document: an empty data-type tag list
makes it raise `IndexError` — see the counterexample theorem.) -/
theorem schema_index_derivation_pure (doc : SchemaDocument)
    (h : ∀ c ∈ doc.classes, ∀ p ∈ c.properties, p.dataType ≠ []) :
    dissect_schema doc = some (schemaIndexSpec doc) :=
  dissect_schema_aux_eq_fold doc.classes [] h

/-- C7 witness: the derivation evaluated on a concrete schema document. -/
theorem schema_index_derivation_pure_witness :
    dissect_schema ⟨[⟨"Doc", [⟨"title", ["text"]⟩, ⟨"refs", ["Doc"]⟩]⟩]⟩ =
      some (schemaIndexSpec ⟨[⟨"Doc", [⟨"title", ["text"]⟩, ⟨"refs", ["Doc"]⟩]⟩]⟩) :=
  schema_index_derivation_pure _ (by decide)

/-- C7 counterexample: on a schema document whose single property carries an
empty data-type tag list, `property_["dataType"][0]` raises `IndexError`, so
the derivation fails (modelled as `none`) instead of having no failure
modes. -/
theorem schema_index_derivation_counterexample :
    dissect_schema ⟨[⟨"C", [⟨"p", ([] : List String)⟩]⟩]⟩ = none := by
  decide

/-- C10: a reference descriptor with no `beacon` key is accepted, producing a
`RefRecord` whose target id is the literal string `e` (the `'e'` fallback of
`ref.get("beacon", "e")` split on `/`); a concrete object with such a
descriptor validates successfully. -/
theorem missing_beacon_accepted :
    (∀ (fc : String) (fid : Option String) (fp : String) (rest : List RefDescriptor),
      dissect_reference (⟨none⟩ :: rest) fc fid fp =
        ⟨fid, fc, fp, "e"⟩ :: dissect_reference rest fc fid fp) ∧
    validate_obj [("C", ⟨[], ["r"]⟩)] ⟨[], []⟩
        ⟨"C", some "x1", none, [("r", .jrefs [⟨none⟩])]⟩ =
      (⟨[⟨"C", some "x1", none, []⟩], [⟨some "x1", "C", "r", "e"⟩]⟩, none) := by
  constructor
  · intro fc fid fp rest
    simp [dissect_reference]
    decide
  · decide

end WeaviateCli
